import Mathlib

/-!
Verification of the todo-list task tracker.

The data model and operations below are shallow embeddings of the
repository's server storage layer (`DatabaseStorage` over a single
`todos` table), the Express route handlers, and the client view
helpers (filtering, derived counts, edit-mode handlers).

Timestamps are modelled as natural numbers (milliseconds since the
epoch); the current time is passed explicitly to every operation that
stamps it.  The relational table is modelled as a list of rows plus
the serial counter that assigns fresh ids.
-/

/-- A row of the `todos` table: `id`, `text`, `completed`,
`createdAt`, `updatedAt`. -/
structure Todo where
  id : Nat
  text : String
  completed : Bool
  createdAt : Nat
  updatedAt : Nat
deriving Repr, DecidableEq

/-- The persistent store: the rows of the `todos` table together with
the serial sequence that yields the next fresh `id`. -/
structure StoreState where
  todos : List Todo
  nextId : Nat
deriving Repr, DecidableEq

/-- The parsed body of an update request: both fields optional,
mirroring `UpdateTodo = { text?: string, completed?: boolean }`. -/
structure UpdateTodo where
  text? : Option String
  completed? : Option Bool
deriving Repr, DecidableEq

/-- Modelled from the spec: the `todos` table schema (not under
`src/`) declares `id` as a serial column and defaults `completed` to
`false` and both timestamps to now, so an insert driven by
`createTodo`'s `insertTodo` (which carries only `text`) produces this
row. -/
def newTodoRow (s : StoreState) (text : String) (now : Nat) : Todo :=
  { id := s.nextId, text := text, completed := false,
    createdAt := now, updatedAt := now }

/-- Embedding of `DatabaseStorage.createTodo`: insert the new row,
return it (`.returning()`), and advance the serial sequence. -/
def createTodo (s : StoreState) (text : String) (now : Nat) :
    StoreState × Todo :=
  let t := newTodoRow s text now
  ({ todos := s.todos ++ [t], nextId := s.nextId + 1 }, t)

/-- The spread `{ ...updates, updatedAt: new Date() }` applied to one
row: supplied fields overwrite, `updatedAt` is stamped to now. -/
def applyUpdate (t : Todo) (u : UpdateTodo) (now : Nat) : Todo :=
  { t with
    text := u.text?.getD t.text
    completed := u.completed?.getD t.completed
    updatedAt := now }

/-- Embedding of `DatabaseStorage.updateTodo`: `UPDATE todos SET ...
WHERE id = ? RETURNING *`; every row matching the id is rewritten, and
the returned row is the updated match (or `none` when no row
matched, which the code maps to `undefined`). -/
def updateTodo (s : StoreState) (id : Nat) (u : UpdateTodo) (now : Nat) :
    StoreState × Option Todo :=
  ({ s with
      todos := s.todos.map (fun t => if t.id == id then applyUpdate t u now else t) },
   (s.todos.find? (fun t => t.id == id)).map (fun t => applyUpdate t u now))

/-- Embedding of `DatabaseStorage.deleteTodo`: `DELETE FROM todos
WHERE id = ?`; the boolean is `rowCount > 0`, i.e. whether any row
matched. -/
def deleteTodo (s : StoreState) (id : Nat) : StoreState × Bool :=
  ({ s with todos := s.todos.filter (fun t => t.id ≠ id) },
   s.todos.any (fun t => t.id == id))

/-- The `ORDER BY createdAt DESC` relation: `a` comes no later than
`b` in the output when `a`'s creation time is no older. -/
def createdDesc (a b : Todo) : Prop := b.createdAt ≤ a.createdAt

instance : DecidableRel createdDesc := fun a b =>
  inferInstanceAs (Decidable (b.createdAt ≤ a.createdAt))

instance : IsTotal Todo createdDesc :=
  ⟨fun a b => (Nat.le_total b.createdAt a.createdAt).imp id id⟩

instance : IsTrans Todo createdDesc :=
  ⟨fun _ _ _ hab hbc => Nat.le_trans hbc hab⟩

/-- Embedding of `DatabaseStorage.getAllTodos`: all rows of the table
ordered by `createdAt` descending. -/
def getAllTodos (s : StoreState) : List Todo :=
  s.todos.insertionSort createdDesc

/-- Invariant maintained by the serial column: every stored id is
below the next value of the sequence. -/
def IdsBelowNext (s : StoreState) : Prop :=
  ∀ t ∈ s.todos, t.id < s.nextId

/-- Invariant: stored ids are pairwise distinct. -/
def UniqueIds (s : StoreState) : Prop :=
  s.todos.Pairwise (fun a b => a.id ≠ b.id)

/-! Client view layer (`Home` component helpers). -/

/-- The three filter tabs. -/
inductive FilterType where
  | all
  | active
  | completed
deriving Repr, DecidableEq

/-- Embedding of `getFilteredTodos`: switch on the active filter. -/
def getFilteredTodos (todos : List Todo) : FilterType → List Todo
  | .active => todos.filter (fun t => !t.completed)
  | .completed => todos.filter (fun t => t.completed)
  | .all => todos

/-- Embedding of `totalTodos = todos.length`. -/
def totalTodos (todos : List Todo) : Nat := todos.length

/-- Embedding of `completedTodos = todos.filter(t => t.completed).length`. -/
def completedTodos (todos : List Todo) : Nat :=
  (todos.filter (fun t => t.completed)).length

/-- Embedding of `pendingTodos = totalTodos - completedTodos`. -/
def pendingTodos (todos : List Todo) : Nat :=
  totalTodos todos - completedTodos todos

/-- The edit-mode slice of the view state: `editingId` and
`editingText`. -/
structure EditState where
  editingId : Option Nat
  editingText : String
deriving Repr, DecidableEq

/-- An update command the view issues to the store through the update
mutation. -/
structure UpdateCommand where
  id : Nat
  updates : UpdateTodo
deriving Repr, DecidableEq

/-- Embedding of the JavaScript string `trim()`: drop whitespace from
both ends. -/
def trimJS (s : String) : String :=
  ⟨((s.toList.dropWhile Char.isWhitespace).reverse.dropWhile Char.isWhitespace).reverse⟩

/-- Embedding of `saveEditing`: a draft that trims to empty is a
no-op; otherwise the mutation is issued with the trimmed text (the
id comes from `editingId!`, modelled with default 0 for the asserted
non-null) and edit mode is exited. -/
def saveEditing (st : EditState) : EditState × Option UpdateCommand :=
  if trimJS st.editingText = "" then (st, none)
  else
    ({ editingId := none, editingText := "" },
     some { id := st.editingId.getD 0,
            updates := { text? := some (trimJS st.editingText), completed? := none } })

/-- Embedding of `cancelEditing`: clear edit mode, issue nothing. -/
def cancelEditing (_st : EditState) : EditState × Option UpdateCommand :=
  ({ editingId := none, editingText := "" }, none)

/-! The route handlers' id-parameter check (`parseInt` then `isNaN`). -/

/-- Value of a character as a digit, `99` when it is none (so the
check `digitValue c < radix` matches JavaScript digit classes for
every radix up to 36). -/
def digitValue (c : Char) : Nat :=
  if '0' ≤ c ∧ c ≤ '9' then c.toNat - '0'.toNat
  else if 'a' ≤ c ∧ c ≤ 'z' then c.toNat - 'a'.toNat + 10
  else if 'A' ≤ c ∧ c ≤ 'Z' then c.toNat - 'A'.toNat + 10
  else 99

/-- Whether `c` is a digit in the given radix. -/
def isDigitIn (radix : Nat) (c : Char) : Bool :=
  digitValue c < radix

/-- Horner evaluation of a digit string in the given radix. -/
def digitsToNat (radix : Nat) (ds : List Char) : Nat :=
  ds.foldl (fun acc c => acc * radix + digitValue c) 0

/-- Step of `parseInt`: read an optional `+`/`-` sign, returning the
sign as `1`/`-1` and the remaining characters. -/
def stripSign : List Char → Int × List Char
  | '+' :: rest => (1, rest)
  | '-' :: rest => (-1, rest)
  | cs => (1, cs)

/-- Step of `parseInt` with no radix argument: a `0x`/`0X` marker
selects radix 16, anything else radix 10. -/
def stripRadix : List Char → Nat × List Char
  | '0' :: 'x' :: rest => (16, rest)
  | '0' :: 'X' :: rest => (16, rest)
  | cs => (10, cs)

/-- Embedding of JavaScript `parseInt(s)` with no radix argument:
skip leading whitespace, read an optional sign, recognise a `0x`/`0X`
hex marker, then take the longest run of digits of the radix; `none`
models `NaN` (no digits at all). -/
def parseIntJS (s : String) : Option Int :=
  let p := stripSign (s.toList.dropWhile Char.isWhitespace)
  let q := stripRadix p.2
  let ds := q.2.takeWhile (isDigitIn q.1)
  if ds.isEmpty then none
  else some (p.1 * (digitsToNat q.1 ds : Int))

/-- Outcome of the id-parameter check shared by the PUT and DELETE
handlers. -/
inductive IdParamResult where
  | badRequest
  | ok (id : Int)
deriving Repr, DecidableEq

/-- Embedding of `const id = parseInt(req.params.id); if (isNaN(id))
return 400`: reject exactly when `parseInt` yields `NaN`. -/
def checkIdParam (s : String) : IdParamResult :=
  match parseIntJS s with
  | none => .badRequest
  | some n => .ok n

/-- Restatement of the claim's wording: the string has a parseable
leading integer when, after optional whitespace, an optional sign and
an optional hex marker, its next character is a digit of the radix in
force. -/
def hasParseableLeadingInt (s : String) : Bool :=
  let q := stripRadix (stripSign (s.toList.dropWhile Char.isWhitespace)).2
  match q.2 with
  | c :: _ => isDigitIn q.1 c
  | [] => false

/-! Helper lemmas shared by the claim theorems. -/

/-- In a store with pairwise-distinct ids, the lookup of a member's
id finds exactly that member. -/
theorem find_of_mem_uniqueIds {l : List Todo} {t : Todo}
    (hnd : l.Pairwise (fun a b => a.id ≠ b.id)) (ht : t ∈ l) :
    l.find? (fun x => x.id == t.id) = some t := by
  induction l with
  | nil => cases ht
  | cons a l ih =>
    rcases List.pairwise_cons.mp hnd with ⟨ha, hl⟩
    rcases List.mem_cons.mp ht with rfl | htl
    · simp [List.find?]
    · have hne : (a.id == t.id) = false := by
        simpa using ha t htl
      simp [List.find?, hne, ih hl htl]

/-- Digit-run emptiness at the head of the character list, for any
radix and sign. -/
theorem parse_none_iff_head_not_digit (radix : Nat) (sign : Int) (cs : List Char) :
    (if (cs.takeWhile (isDigitIn radix)).isEmpty then none
     else some (sign * (digitsToNat radix (cs.takeWhile (isDigitIn radix)) : Int))) =
      (none : Option Int)
    ↔ (match cs with
       | c :: _ => isDigitIn radix c
       | [] => false) = false := by
  cases cs with
  | nil => simp [List.takeWhile]
  | cons c rest => by_cases hd : isDigitIn radix c <;> simp [List.takeWhile, hd]

/-- The parse fails exactly when no leading digit is available after
the whitespace, sign and radix-marker steps. -/
theorem parseIntJS_none_iff (s : String) :
    parseIntJS s = none ↔ hasParseableLeadingInt s = false :=
  parse_none_iff_head_not_digit
    (stripRadix (stripSign (s.toList.dropWhile Char.isWhitespace)).2).1
    (stripSign (s.toList.dropWhile Char.isWhitespace)).1
    (stripRadix (stripSign (s.toList.dropWhile Char.isWhitespace)).2).2

/-! Claim theorems. -/

/-- Claim C1: deleting an id with no matching task is not an error at
the store level: the state is unchanged and the returned flag is
`false`; and after any delete of an id, deleting the same id again
removes nothing and again returns `false` (idempotent delete). -/
theorem delete_missing_noop_and_idem (s : StoreState) (id : Nat) :
    ((∀ t ∈ s.todos, t.id ≠ id) → deleteTodo s id = (s, false)) ∧
    deleteTodo (deleteTodo s id).1 id = ((deleteTodo s id).1, false) := by
  constructor
  · intro h
    obtain ⟨todos, nextId⟩ := s
    simp only [deleteTodo, Prod.mk.injEq]
    constructor
    · simp only [StoreState.mk.injEq, and_true]
      exact List.filter_eq_self.mpr (fun a ha => by simpa using h a ha)
    · simp only [List.any_eq_false]
      intro x hx
      simpa using h x hx
  · obtain ⟨todos, nextId⟩ := s
    simp only [deleteTodo, Prod.mk.injEq, StoreState.mk.injEq, and_true]
    constructor
    · exact List.filter_eq_self.mpr (fun a ha => (List.mem_filter.mp ha).2)
    · simp only [List.any_eq_false]
      intro x hx
      have := (List.mem_filter.mp hx).2
      simpa using this

/-- Witness for C1 at a concrete store and missing id. -/
theorem delete_missing_noop_and_idem_witness :
    deleteTodo ⟨[⟨1, "a", false, 0, 0⟩], 2⟩ 7 = (⟨[⟨1, "a", false, 0, 0⟩], 2⟩, false) :=
  (delete_missing_noop_and_idem ⟨[⟨1, "a", false, 0, 0⟩], 2⟩ 7).1 (by decide)

/-- Claim C2: creating a task from non-empty text yields a record
with `completed = false`, equal creation and update stamps, the given
text, and an id distinct from every stored task's id; the record is
appended to the store and the id-bound invariant is preserved. -/
theorem create_fresh_defaults (s : StoreState) (text : String) (now : Nat)
    (hwf : IdsBelowNext s) (_htext : text ≠ "") :
    (createTodo s text now).2.completed = false ∧
    (createTodo s text now).2.createdAt = (createTodo s text now).2.updatedAt ∧
    (createTodo s text now).2.text = text ∧
    (∀ t ∈ s.todos, t.id ≠ (createTodo s text now).2.id) ∧
    (createTodo s text now).1.todos = s.todos ++ [(createTodo s text now).2] ∧
    IdsBelowNext (createTodo s text now).1 := by
  refine ⟨rfl, rfl, rfl, ?_, rfl, ?_⟩
  · intro t ht
    exact Nat.ne_of_lt (hwf t ht)
  · intro t ht
    simp only [createTodo, newTodoRow] at ht ⊢
    rcases List.mem_append.mp ht with h | h
    · exact Nat.lt_succ_of_lt (hwf t h)
    · simp at h
      subst h
      exact Nat.lt_succ_self _

/-- Witness for C2 at a concrete store and text. -/
theorem create_fresh_defaults_witness :
    (createTodo ⟨[⟨1, "a", false, 0, 0⟩], 2⟩ "hi" 5).2.completed = false ∧
    (createTodo ⟨[⟨1, "a", false, 0, 0⟩], 2⟩ "hi" 5).2.createdAt =
      (createTodo ⟨[⟨1, "a", false, 0, 0⟩], 2⟩ "hi" 5).2.updatedAt ∧
    ∀ t ∈ (⟨[⟨1, "a", false, 0, 0⟩], 2⟩ : StoreState).todos,
      t.id ≠ (createTodo ⟨[⟨1, "a", false, 0, 0⟩], 2⟩ "hi" 5).2.id :=
  let h := create_fresh_defaults ⟨[⟨1, "a", false, 0, 0⟩], 2⟩ "hi" 5
    (by simp [IdsBelowNext]) (by decide)
  ⟨h.1, h.2.1, h.2.2.2.1⟩

/-- Claim C3: an update of an existing task that supplies only
`completed` returns that task with only `completed` and `updatedAt`
changed (the returned record keeps the task's `text`, `createdAt`
and `id` literally), rewrites the table pointwise so that rows with a
different id are untouched, and leaves the serial counter alone. -/
theorem update_completed_only_frame (s : StoreState) (t : Todo) (b : Bool) (now : Nat)
    (hu : UniqueIds s) (ht : t ∈ s.todos) :
    (updateTodo s t.id ⟨none, some b⟩ now).2 =
      some { t with completed := b, updatedAt := now } ∧
    (updateTodo s t.id ⟨none, some b⟩ now).1.todos =
      s.todos.map (fun x => if x.id = t.id
        then { x with completed := b, updatedAt := now } else x) ∧
    (∀ x ∈ s.todos, x.id ≠ t.id →
      x ∈ (updateTodo s t.id ⟨none, some b⟩ now).1.todos) ∧
    (updateTodo s t.id ⟨none, some b⟩ now).1.nextId = s.nextId := by
  refine ⟨?_, ?_, ?_, rfl⟩
  · simp only [updateTodo, find_of_mem_uniqueIds hu ht, Option.map_some']
    rfl
  · simp only [updateTodo]
    apply List.map_congr_left
    intro x _
    by_cases hxy : x.id = t.id
    · simp [hxy, applyUpdate]
    · simp [hxy]
  · intro x hx hne
    simp only [updateTodo]
    refine List.mem_map.mpr ⟨x, hx, ?_⟩
    simp [hne]

/-- Witness for C3 at a concrete one-task store. -/
theorem update_completed_only_frame_witness :
    (updateTodo ⟨[⟨1, "a", false, 0, 0⟩], 2⟩ 1 ⟨none, some true⟩ 9).2 =
      some ⟨1, "a", true, 0, 9⟩ :=
  (update_completed_only_frame ⟨[⟨1, "a", false, 0, 0⟩], 2⟩ ⟨1, "a", false, 0, 0⟩ true 9
    (by simp [UniqueIds]) (by decide)).1

/-- Claim C4: an update aimed at an id no stored task has returns the
not-found marker (`none`, which the route maps to HTTP 404) and
leaves the whole store state unchanged. -/
theorem update_missing_noop (s : StoreState) (id : Nat) (u : UpdateTodo) (now : Nat)
    (h : ∀ t ∈ s.todos, t.id ≠ id) :
    updateTodo s id u now = (s, none) := by
  obtain ⟨todos, nextId⟩ := s
  simp only [updateTodo, Prod.mk.injEq, StoreState.mk.injEq, and_true]
  constructor
  · have hfix : ∀ t ∈ todos, (if t.id == id then applyUpdate t u now else t) = t := by
      intro t ht
      simp [h t ht]
    calc todos.map (fun t => if t.id == id then applyUpdate t u now else t)
        = todos.map (fun t => t) := List.map_congr_left hfix
      _ = todos := List.map_id' todos
  · have hnone : todos.find? (fun t => t.id == id) = none := by
      rw [List.find?_eq_none]
      intro x hx
      simpa using h x hx
    simp [hnone]

/-- Witness for C4 at a concrete store and missing id. -/
theorem update_missing_noop_witness :
    updateTodo ⟨[⟨1, "a", false, 0, 0⟩], 2⟩ 7 ⟨some "b", none⟩ 9 =
      (⟨[⟨1, "a", false, 0, 0⟩], 2⟩, none) :=
  update_missing_noop ⟨[⟨1, "a", false, 0, 0⟩], 2⟩ 7 ⟨some "b", none⟩ 9 (by decide)

/-- Claim C5: listing returns a permutation of the stored rows (all
records, nothing else) sorted by `createdAt` descending. -/
theorem getAllTodos_perm_sorted (s : StoreState) :
    (getAllTodos s).Perm s.todos ∧ (getAllTodos s).Sorted createdDesc :=
  ⟨List.perm_insertionSort createdDesc s.todos,
   List.sorted_insertionSort createdDesc s.todos⟩

/-- Claim C6: the `active` view holds no completed task, the
`completed` view holds no pending task, and the `all` view is the
fetched list itself. -/
theorem filtered_views (todos : List Todo) :
    (∀ t ∈ getFilteredTodos todos .active, t.completed = false) ∧
    (∀ t ∈ getFilteredTodos todos .completed, t.completed = true) ∧
    getFilteredTodos todos .all = todos := by
  refine ⟨?_, ?_, rfl⟩ <;> intro t ht <;>
    simp [getFilteredTodos, List.mem_filter] at ht <;> tauto

/-- Witness for C6 at a concrete list and member. -/
theorem filtered_views_witness :
    (⟨1, "a", false, 0, 0⟩ : Todo).completed = false ∧
    getFilteredTodos [⟨1, "a", false, 0, 0⟩] .all = [⟨1, "a", false, 0, 0⟩] :=
  ⟨(filtered_views [⟨1, "a", false, 0, 0⟩]).1 ⟨1, "a", false, 0, 0⟩ (by decide),
   (filtered_views [⟨1, "a", false, 0, 0⟩]).2.2⟩

/-- Claim C7: the derived counts always satisfy pending + completed =
total. -/
theorem counts_add_up (todos : List Todo) :
    pendingTodos todos + completedTodos todos = totalTodos todos := by
  have h : completedTodos todos ≤ totalTodos todos := List.length_filter_le _ _
  unfold pendingTodos
  omega

/-- Claim C8: confirming an edit whose draft trims to non-empty
issues exactly one update carrying the trimmed text and leaves edit
mode; a draft that trims to empty is a complete no-op; cancelling
clears the draft and issues nothing. -/
theorem edit_confirm_cancel (st : EditState) :
    (trimJS st.editingText ≠ "" →
      saveEditing st =
        ({ editingId := none, editingText := "" },
         some { id := st.editingId.getD 0,
                updates := { text? := some (trimJS st.editingText), completed? := none } })) ∧
    (trimJS st.editingText = "" → saveEditing st = (st, none)) ∧
    cancelEditing st = ({ editingId := none, editingText := "" }, none) := by
  refine ⟨fun h => ?_, fun h => ?_, rfl⟩ <;> simp [saveEditing, h]

/-- Witness for C8 at a concrete non-empty draft and a concrete
whitespace-only draft. -/
theorem edit_confirm_cancel_witness :
    saveEditing ⟨some 3, " hi "⟩ =
      (⟨none, ""⟩, some ⟨(some 3).getD 0, ⟨some (trimJS " hi "), none⟩⟩) ∧
    saveEditing ⟨some 3, "   "⟩ = (⟨some 3, "   "⟩, none) :=
  ⟨(edit_confirm_cancel ⟨some 3, " hi "⟩).1 (by decide),
   (edit_confirm_cancel ⟨some 3, "   "⟩).2.1 (by decide)⟩

/-- Claim C9: an update of an existing task whose body supplies no
fields at all succeeds, returning the task with only `updatedAt`
restamped, and every other row is untouched. -/
theorem update_empty_updates (s : StoreState) (t : Todo) (now : Nat)
    (hu : UniqueIds s) (ht : t ∈ s.todos) :
    (updateTodo s t.id ⟨none, none⟩ now).2 = some { t with updatedAt := now } ∧
    (∀ x ∈ s.todos, x.id ≠ t.id →
      x ∈ (updateTodo s t.id ⟨none, none⟩ now).1.todos) := by
  constructor
  · simp only [updateTodo, find_of_mem_uniqueIds hu ht, Option.map_some']
    rfl
  · intro x hx hne
    simp only [updateTodo]
    refine List.mem_map.mpr ⟨x, hx, ?_⟩
    simp [hne]

/-- Witness for C9 at a concrete one-task store. -/
theorem update_empty_updates_witness :
    (updateTodo ⟨[⟨1, "a", false, 0, 0⟩], 2⟩ 1 ⟨none, none⟩ 9).2 =
      some ⟨1, "a", false, 0, 9⟩ :=
  (update_empty_updates ⟨[⟨1, "a", false, 0, 0⟩], 2⟩ ⟨1, "a", false, 0, 0⟩ 9
    (by simp [UniqueIds]) (by decide)).1

/-- Claim C10: the id-parameter check of the PUT and DELETE handlers
answers 400 exactly when the path parameter has no parseable leading
integer, and accepts a digit run followed by garbage as its integer
value: `"12abc"` is treated as `12`. -/
theorem id_param_rejects_iff (s : String) :
    (checkIdParam s = .badRequest ↔ hasParseableLeadingInt s = false) ∧
    checkIdParam "12abc" = .ok 12 := by
  refine ⟨?_, rfl⟩
  have h := parseIntJS_none_iff s
  cases hp : parseIntJS s <;> simp [checkIdParam, hp] <;> simp [hp] at h <;> tauto

/-- Witness for C10 at a concrete digitless string. -/
theorem id_param_rejects_iff_witness :
    checkIdParam "abc" = .badRequest :=
  (id_param_rejects_iff "abc").1.mpr (by decide)
